import Mathlib

/-!
Verification of the MealLensAI health-assistant backend
(enterprise/invitation/meal-plan/settings routes) against its
natural-language specification.

The Python handlers are shallowly embedded as pure functions over an
explicit database state `DB`.  Each definition carries a reference to the
source location it embeds.  External collaborators (the BaaS tables, the
auth provider) are represented by the corresponding lists in `DB`;
operations that the source performs against them become list queries and
updates.  Logging, email notifications and background threads are
side-effect-free in the model (they do not change any table and no claim
mentions them).
-/

/-- An enterprise/organization row (table `enterprises`).
`max_users` is optional because the handlers read it with
`enterprise_data.get("max_users", 100)`. -/
structure Enterprise where
  id : String
  name : String
  created_by : String
  max_users : Option Nat
deriving Repr, DecidableEq

/-- A membership row (table `organization_users`). -/
structure OrganizationUser where
  id : String
  enterprise_id : String
  user_id : String
  role : String
  status : String
  joined_at : Int
deriving Repr, DecidableEq

/-- An invitation row (table `invitations`). -/
structure Invitation where
  id : String
  enterprise_id : String
  email : String
  invited_by : String
  invitation_token : String
  role : String
  message : Option String
  status : String
  expires_at : Int
  accepted_at : Option Int
  accepted_by : Option String
deriving Repr, DecidableEq

/-- A meal-plan row (table `meal_plan_management`).  The nested plan
content is opaque JSON in the source and is kept opaque here; the
`user_info` JSON blob is represented by the two keys the handlers write
into it (`creator_email`, `is_created_by_user`). -/
structure MealPlan where
  id : String
  user_id : String
  name : Option String
  start_date : Option String
  end_date : Option String
  meal_plan : Option String
  has_sickness : Bool
  sickness_type : String
  health_assessment : Option String
  creator_email : Option String
  is_created_by_user : Bool
  is_approved : Bool
  created_at : Int
  updated_at : Int
deriving Repr, DecidableEq

/-- A registered account of the auth provider, as observed by
`check_user_exists_by_email` (src/backend/routes/enterprise_routes.py:139). -/
structure Account where
  id : String
  email : String
deriving Repr, DecidableEq

/-- The persistent state: every entity is a row in the external managed
database (spec section 3). -/
structure DB where
  enterprises : List Enterprise
  organization_users : List OrganizationUser
  invitations : List Invitation
  meal_plans : List MealPlan
  accounts : List Account
deriving Repr, DecidableEq

/-- The membership rows of a user inside an enterprise: the query
`table("organization_users").select(...).eq("enterprise_id", eid).eq("user_id", uid)`
used throughout the routes. -/
def membershipRows (db : DB) (enterpriseId userId : String) : List OrganizationUser :=
  db.organization_users.filter (fun m => m.enterprise_id == enterpriseId && m.user_id == userId)

/-- Number of membership rows of a (enterprise, user) pair. -/
def countMem (db : DB) (enterpriseId userId : String) : Nat :=
  (membershipRows db enterpriseId userId).length

/-- Embeds `check_user_is_org_admin`
(src/backend/routes/enterprise_routes.py:79-136): owner via
`enterprises.created_by`, otherwise an `organization_users` row whose
role is `admin`. -/
def check_user_is_org_admin (db : DB) (userId enterpriseId : String) : Bool × String :=
  match db.enterprises.find? (fun e => e.id == enterpriseId) with
  | none => (false, "Organization not found")
  | some e =>
    if e.created_by == userId then (true, "owner")
    else
      match db.organization_users.filter
          (fun m => m.enterprise_id == enterpriseId && m.user_id == userId) with
      | [] => (false, "User is not a member of this organization")
      | m :: _ =>
        if m.role == "admin" then (true, "admin")
        else (false, "User role does not have permission to manage users")

/-- Python `str.lower()`: maps each character to lower case.  Defined on
the character list of the string so that concrete runs evaluate. -/
def pyLower (s : String) : String := ⟨s.toList.map Char.toLower⟩

/-- Python `str.strip()`: removes leading and trailing whitespace. -/
def pyStrip (s : String) : String :=
  ⟨((s.toList.dropWhile Char.isWhitespace).reverse.dropWhile Char.isWhitespace).reverse⟩

/-- Embeds the account lookup of `check_user_exists_by_email`
(src/backend/routes/enterprise_routes.py:139-163): a case-insensitive
match of the email against the registered accounts. -/
def check_user_exists_by_email (db : DB) (email : String) : Option Account :=
  db.accounts.find? (fun a => pyLower a.email == email)

/-- The allowed invitee roles, `ALLOWED_ROLES`
(src/backend/routes/enterprise_routes.py:683). -/
def ALLOWED_ROLES : List String := ["client", "patient", "doctor", "nutritionist"]

/-- Role normalization of `invite_user`
(src/backend/routes/enterprise_routes.py:684-689): default `patient`,
lower-case, strip, and map `doctors` to `doctor`. -/
def normalizeRole (r : Option String) : String :=
  let role := pyStrip (pyLower (r.getD "patient"))
  if role == "doctors" then "doctor" else role

/-- Modelled from the spec: the `invitations` table schema is not part of
the repository sources.  The insert payload of `invite_user` carries no
`status` key, and per spec section 4.2 the lifecycle of a fresh
invitation starts at `pending` (all handlers treat newly created
invitations as pending), so the database column default is modelled as
`"pending"`. -/
def newInvitationStatus : String := "pending"

/-- Thirty days in seconds: `expires_at` is set to now + 30 days
(src/backend/routes/enterprise_routes.py:785). -/
def invitationTtl : Int := 30 * 24 * 60 * 60

/-- The request body of the invite endpoint. -/
structure InviteRequest where
  email : Option String
  role : Option String
  message : Option String
deriving Repr, DecidableEq

/-- Result of `invite_user`, one constructor per return site. -/
inductive InviteResult where
  | invalidEnterpriseId
  | emptyRequest
  | missingEmail
  | invalidRole (role : String)
  | orgNotFound
  | accessDenied (reason : String)
  | limitReached (maxUsers : Nat)
  | alreadyMember
  | userAlreadyExists
  | pendingExists
  | created (inv : Invitation)
deriving Repr, DecidableEq

/-- Embeds `invite_user` (src/backend/routes/enterprise_routes.py:637-810).
`emailCheckThrew` models the caught exception around
`check_user_exists_by_email` (lines 761-764): when the check raises, the
handler logs and continues.  `newInvId` and `newToken` stand for the
database-generated id and `secrets.token_urlsafe(32)`. -/
def invite_user (db : DB) (userId enterpriseId : String) (req : Option InviteRequest)
    (now : Int) (newInvId newToken : String) (emailCheckThrew : Bool) :
    InviteResult × DB :=
  if enterpriseId == "" || enterpriseId == "undefined" || enterpriseId == "null" then
    (.invalidEnterpriseId, db)
  else
    match req with
    | none => (.emptyRequest, db)
    | some data =>
      if (pyStrip (data.email.getD "")) == "" then (.missingEmail, db)
      else
        let email := pyStrip (pyLower (data.email.getD ""))
        let role := normalizeRole data.role
        if !(ALLOWED_ROLES.contains role) then (.invalidRole role, db)
        else
          match db.enterprises.find? (fun e => e.id == enterpriseId) with
          | none => (.orgNotFound, db)
          | some enterprise =>
            let perm := check_user_is_org_admin db userId enterpriseId
            if !perm.1 then (.accessDenied perm.2, db)
            else
              -- user-limit check (lines 724-734): the count is over ALL
              -- organization_users rows of the enterprise, with no filter
              -- on the membership status column.
              let currentCount :=
                (db.organization_users.filter
                  (fun m => m.enterprise_id == enterpriseId)).length
              let maxUsers := enterprise.max_users.getD 100
              if maxUsers ≤ currentCount then (.limitReached maxUsers, db)
              else
                let accountHit :=
                  if emailCheckThrew then none
                  else check_user_exists_by_email db email
                match accountHit with
                | some acc =>
                  if !(membershipRows db enterpriseId acc.id).isEmpty then
                    (.alreadyMember, db)
                  else (.userAlreadyExists, db)
                | none =>
                  if !((db.invitations.filter (fun i =>
                        i.enterprise_id == enterpriseId && i.email == email &&
                        i.status == "pending")).isEmpty) then
                    (.pendingExists, db)
                  else
                    let inv : Invitation :=
                      { id := newInvId
                        enterprise_id := enterpriseId
                        email := email
                        invited_by := userId
                        invitation_token := newToken
                        role := role
                        message := data.message
                        status := newInvitationStatus
                        expires_at := now + invitationTtl
                        accepted_at := none
                        accepted_by := none }
                    (.created inv, { db with invitations := db.invitations ++ [inv] })

/-- The number of ACTIVE memberships of an enterprise, as worded by the
spec (spec sections 4.2 and 8: "active-membership count").  This
definition follows the words of the spec, for comparison against the
count the code actually uses; the source query at
src/backend/routes/enterprise_routes.py:726 has no status filter. -/
def specActiveMembershipCount (db : DB) (enterpriseId : String) : Nat :=
  (db.organization_users.filter
    (fun m => m.enterprise_id == enterpriseId && m.status == "active")).length

/-- Marks an invitation as accepted: the update
`table("invitations").update(status="accepted", accepted_at=..., accepted_by=...).eq("id", invId)`
shared by `accept_invitation`, `complete_invitation` and
`auto_accept_pending_invitations`. -/
def markInvitationAccepted (db : DB) (invId userId : String) (now : Int) : DB :=
  { db with invitations := db.invitations.map (fun i =>
      if i.id == invId then
        { i with status := "accepted", accepted_at := some now, accepted_by := some userId }
      else i) }

/-- Inserts the membership row built by the acceptance paths
(src/backend/routes/enterprise_routes.py:1244-1259, 1420-1435,
src/backend/routes/invitation_helpers.py:88-100): role taken from the
invitation, status `active`. -/
def insertMembership (db : DB) (membershipId enterpriseId userId role : String)
    (now : Int) : DB :=
  { db with organization_users := db.organization_users ++
      [{ id := membershipId
         enterprise_id := enterpriseId
         user_id := userId
         role := role
         status := "active"
         joined_at := now }] }

/-- Result of `verify_invitation`, one constructor per return site. -/
inductive VerifyResult where
  | invalidToken
  | statusNotPending (status : String)
  | expired
  | success (invitationId email role enterpriseId : String)
deriving Repr, DecidableEq

/-- Embeds `verify_invitation`
(src/backend/routes/enterprise_routes.py:1080-1186).  The handler is
read-only.  The status check (line 1149) runs BEFORE the expiry check
(lines 1152-1155); an invitation is expired when `now > expires_at`.
URL decoding and stripping of the token are identity in the model: the
`token` argument is the decoded, stripped token, and both lookups of
the source run the same pure query on it. -/
def verify_invitation (db : DB) (token : String) (now : Int) : VerifyResult :=
  if token == "" then .invalidToken
  else
    match db.invitations.find? (fun i => i.invitation_token == token) with
    | none => .invalidToken
    | some inv =>
      if inv.status != "pending" then .statusNotPending inv.status
      else if inv.expires_at < now then .expired
      else .success inv.id inv.email inv.role inv.enterprise_id

/-- Result of `accept_invitation`, one constructor per return site. -/
inductive AcceptResult where
  | missingToken
  | invalidToken
  | notPending
  | expired
  | alreadyAMember
  | accepted (enterpriseId : String)
  | requiresRegistration
deriving Repr, DecidableEq

/-- Embeds `accept_invitation`
(src/backend/routes/enterprise_routes.py:1189-1382).  `authUser` is the
user id resolved from the bearer token, `none` when unauthenticated (the
anonymous path returns the registration payload and writes nothing).
Note the handler never compares the authenticated user against the
invited email: any authenticated bearer of the token is added.
`newMembershipId` stands for `uuid.uuid4()`. -/
def accept_invitation (db : DB) (token : Option String) (authUser : Option String)
    (now : Int) (newMembershipId : String) : AcceptResult × DB :=
  match token with
  | none => (.missingToken, db)
  | some tok =>
    match db.invitations.find? (fun i => i.invitation_token == tok) with
    | none => (.invalidToken, db)
    | some inv =>
      if inv.status != "pending" then (.notPending, db)
      else if inv.expires_at < now then (.expired, db)
      else
        match authUser with
        | none => (.requiresRegistration, db)
        | some userId =>
          if !(membershipRows db inv.enterprise_id userId).isEmpty then
            (.alreadyAMember, db)
          else
            let db1 := insertMembership db newMembershipId inv.enterprise_id userId inv.role now
            let db2 := markInvitationAccepted db1 inv.id userId now
            (.accepted inv.enterprise_id, db2)

/-- Result of `complete_invitation`, one constructor per return site. -/
inductive CompleteResult where
  | missingId
  | invalidId
  | alreadyUsed
  | alreadyAMember
  | completed (enterpriseId : String)
deriving Repr, DecidableEq

/-- Embeds `complete_invitation`
(src/backend/routes/enterprise_routes.py:1385-1538): like the
authenticated accept path, but looked up by invitation id and allowing
status `pending` OR `accepted` (an accepted invitation keeps status
`accepted`). -/
def complete_invitation (db : DB) (invitationId : Option String) (userId : String)
    (now : Int) (newMembershipId : String) : CompleteResult × DB :=
  match invitationId with
  | none => (.missingId, db)
  | some invId =>
    match db.invitations.find? (fun i => i.id == invId) with
    | none => (.invalidId, db)
    | some inv =>
      if !(inv.status == "pending" || inv.status == "accepted") then (.alreadyUsed, db)
      else if !(membershipRows db inv.enterprise_id userId).isEmpty then
        (.alreadyAMember, db)
      else
        let db1 := insertMembership db newMembershipId inv.enterprise_id userId inv.role now
        let db2 := markInvitationAccepted db1 inv.id userId now
        (.completed inv.enterprise_id, db2)

/-- Result of `cancel_invitation`, one constructor per return site. -/
inductive CancelResult where
  | notFound
  | accessDenied (reason : String)
  | cannotCancel (status : String)
  | cancelled
deriving Repr, DecidableEq

/-- Embeds `cancel_invitation`
(src/backend/routes/enterprise_routes.py:930-986): owner/admin only, and
only while the invitation is still pending. -/
def cancel_invitation (db : DB) (invitationId userId : String) : CancelResult × DB :=
  match db.invitations.find? (fun i => i.id == invitationId) with
  | none => (.notFound, db)
  | some inv =>
    let perm := check_user_is_org_admin db userId inv.enterprise_id
    if !perm.1 then (.accessDenied perm.2, db)
    else if inv.status != "pending" then (.cannotCancel inv.status, db)
    else
      (.cancelled,
       { db with invitations := db.invitations.map (fun i =>
           if i.id == invitationId then { i with status := "cancelled" } else i) })

/-- The loop body of `auto_accept_pending_invitations`
(src/backend/routes/invitation_helpers.py:58-176), iterating over the
snapshot of pending invitations fetched at entry (line 50) while the
database evolves.  `mkId` supplies the fresh `uuid.uuid4()` membership
ids, indexed by insertion count.  Per invitation: skip when expired or
when the enterprise id is empty; when the user is already a member, only
flip the invitation to accepted; otherwise insert a membership row and
flip the invitation. -/
def autoAcceptGo (userId : String) (now : Int) (mkId : Nat → String) :
    List Invitation → Nat → DB → List String × DB
  | [], _, db => ([], db)
  | inv :: rest, n, db =>
    if inv.expires_at < now then autoAcceptGo userId now mkId rest n db
    else if inv.enterprise_id == "" then autoAcceptGo userId now mkId rest n db
    else if !(membershipRows db inv.enterprise_id userId).isEmpty then
      let db1 := markInvitationAccepted db inv.id userId now
      let res := autoAcceptGo userId now mkId rest n db1
      (inv.id :: res.1, res.2)
    else
      let db1 := insertMembership db (mkId n) inv.enterprise_id userId inv.role now
      let db2 := markInvitationAccepted db1 inv.id userId now
      let res := autoAcceptGo userId now mkId rest (n + 1) db2
      (inv.id :: res.1, res.2)

/-- Embeds `auto_accept_pending_invitations`
(src/backend/routes/invitation_helpers.py:31-183): all pending
invitations matching the email (lower-cased, stripped) are processed in
order; returns the accepted invitation ids and the new state. -/
def auto_accept_pending_invitations (db : DB) (userId userEmail : String)
    (now : Int) (mkId : Nat → String) : List String × DB :=
  let pend := db.invitations.filter (fun i =>
    i.email == pyStrip (pyLower userEmail) && i.status == "pending")
  autoAcceptGo userId now mkId pend 0 db

/-- The request body of the admin meal-plan create endpoint. -/
structure MealPlanRequest where
  name : Option String
  start_date : Option String
  end_date : Option String
  meal_plan : Option String
  has_sickness : Bool
  sickness_type : String
  health_assessment : Option String
deriving Repr, DecidableEq

/-- Result of `create_user_meal_plan`, one constructor per return site. -/
inductive CreatePlanResult where
  | accessDenied (reason : String)
  | notMember
  | created (plan : MealPlan)
deriving Repr, DecidableEq

/-- Embeds `create_user_meal_plan`
(src/backend/routes/enterprise_routes.py:2429-2538): admin/owner only,
target user must be a member, and the inserted row carries
`is_approved := false` (line 2492). -/
def create_user_meal_plan (db : DB) (adminId enterpriseId targetUserId : String)
    (req : MealPlanRequest) (now : Int) (newPlanId : String)
    (adminEmail : Option String) : CreatePlanResult × DB :=
  let perm := check_user_is_org_admin db adminId enterpriseId
  if !perm.1 then (.accessDenied perm.2, db)
  else if (membershipRows db enterpriseId targetUserId).isEmpty then (.notMember, db)
  else
    let plan : MealPlan :=
      { id := newPlanId
        user_id := targetUserId
        name := req.name
        start_date := req.start_date
        end_date := req.end_date
        meal_plan := req.meal_plan
        has_sickness := req.has_sickness
        sickness_type := req.sickness_type
        health_assessment := req.health_assessment
        creator_email := adminEmail
        is_created_by_user := false
        is_approved := false
        created_at := now
        updated_at := now }
    (.created plan, { db with meal_plans := db.meal_plans ++ [plan] })

/-- Result of `approve_meal_plan`, one constructor per return site. -/
inductive ApproveResult where
  | accessDenied (reason : String)
  | notFound
  | notMember
  | approved
deriving Repr, DecidableEq

/-- Embeds `approve_meal_plan`
(src/backend/routes/enterprise_routes.py:2541-2612): sets
`is_approved := true` on the row with the given id. -/
def approve_meal_plan (db : DB) (adminId enterpriseId planId : String)
    (now : Int) : ApproveResult × DB :=
  let perm := check_user_is_org_admin db adminId enterpriseId
  if !perm.1 then (.accessDenied perm.2, db)
  else
    match db.meal_plans.find? (fun p => p.id == planId) with
    | none => (.notFound, db)
    | some plan =>
      if (membershipRows db enterpriseId plan.user_id).isEmpty then (.notMember, db)
      else
        (.approved,
         { db with meal_plans := db.meal_plans.map (fun p =>
             if p.id == planId then { p with is_approved := true, updated_at := now }
             else p) })

/-- Result of `reject_meal_plan`, one constructor per return site. -/
inductive RejectResult where
  | accessDenied (reason : String)
  | notFound
  | notMember
  | rejected
deriving Repr, DecidableEq

/-- Embeds `reject_meal_plan`
(src/backend/routes/enterprise_routes.py:2615-2670): deletes the row
outright. -/
def reject_meal_plan (db : DB) (adminId enterpriseId planId : String) :
    RejectResult × DB :=
  let perm := check_user_is_org_admin db adminId enterpriseId
  if !perm.1 then (.accessDenied perm.2, db)
  else
    match db.meal_plans.find? (fun p => p.id == planId) with
    | none => (.notFound, db)
    | some plan =>
      if (membershipRows db enterpriseId plan.user_id).isEmpty then (.notMember, db)
      else
        (.rejected,
         { db with meal_plans := db.meal_plans.filter (fun p => p.id != planId) })

/-- Embeds the row selection of `SupabaseService.get_meal_plans`
(src/backend/services/supabase_service.py:764-800), the user-facing
listing: only rows of the user with `is_approved = TRUE`.  The
`order("updated_at", desc=True)` clause affects presentation order only,
not which rows are returned, and is omitted. -/
def get_meal_plans (db : DB) (userId : String) : List MealPlan :=
  db.meal_plans.filter (fun p => p.user_id == userId && p.is_approved)

/-- Embeds `get_enterprise_users`
(src/backend/routes/enterprise_routes.py:542-634): admin/owner only,
then all `organization_users` rows of the enterprise.  The auth-profile
and invitation decoration added per row does not change which membership
rows are listed, so the result is the list of rows. -/
def get_enterprise_users (db : DB) (requesterId enterpriseId : String) :
    Except String (List OrganizationUser) :=
  let perm := check_user_is_org_admin db requesterId enterpriseId
  if !perm.1 then .error perm.2
  else .ok (db.organization_users.filter (fun m => m.enterprise_id == enterpriseId))

/-- A raised Python exception, as observed by the error classifiers:
its message (`str(e)`), its `errno` attribute, and its type name. -/
structure PyError where
  msg : String
  errno : Option Int
  typeName : String
deriving Repr, DecidableEq

/-- Outcome of one attempt of an operation handed to a retry helper. -/
inductive Attempt (α : Type) where
  | ok (a : α)
  | raise (e : PyError)
deriving Repr, DecidableEq

/-- Lower-cases a string, viewed as its character list (Python
`str.lower()` maps each character independently). -/
def lowerChars (s : String) : List Char := s.toList.map Char.toLower

/-- Substring containment, the Python `needle in haystack` test, on
character lists. -/
def charsContain (haystack : List Char) (needle : String) : Bool :=
  decide (needle.toList <:+: haystack)

/-- Embeds the inline transient-error classification of
`SupabaseService._retry_supabase_call`
(src/backend/services/supabase_service.py:741-751). -/
def isTransientSupabase (e : PyError) : Bool :=
  let s := lowerChars e.msg
  charsContain s "resource temporarily unavailable" ||
  e.errno == some 35 ||
  charsContain s "connection" ||
  charsContain s "timeout" ||
  charsContain s "temporarily unavailable"

/-- Embeds `SupabaseService._is_connection_error`
(src/backend/services/supabase_service.py:18-32).  Python operator
precedence makes the `connection`-test one conjunctive disjunct. -/
def is_connection_error (e : PyError) : Bool :=
  let s := lowerChars e.msg
  let t := lowerChars e.typeName
  charsContain s "connectionterminated" ||
  charsContain t "remoteprotocolerror" ||
  (charsContain s "connection" &&
    (charsContain s "terminated" || charsContain s "reset" || charsContain s "closed")) ||
  charsContain s "resource temporarily unavailable" ||
  charsContain s "[errno 35]" ||
  charsContain t "readerror" ||
  charsContain s "timeout"

/-- Decidable equality for `Except`, used to evaluate concrete runs. -/
instance exceptDecEq {ε α : Type} [DecidableEq ε] [DecidableEq α] :
    DecidableEq (Except ε α) := fun a b =>
  match a, b with
  | .ok x, .ok y =>
    if h : x = y then .isTrue (congrArg Except.ok h)
    else .isFalse (fun hc => h (Except.ok.inj hc))
  | .error x, .error y =>
    if h : x = y then .isTrue (congrArg Except.error h)
    else .isFalse (fun hc => h (Except.error.inj hc))
  | .ok _, .error _ => .isFalse (fun hc => Except.noConfusion hc)
  | .error _, .ok _ => .isFalse (fun hc => Except.noConfusion hc)

/-- Trace of a `_retry_supabase_call` run: its final outcome, how many
times the operation was attempted, and the sleeps performed between
attempts (in seconds). -/
structure RetryTrace (α : Type) where
  result : Except PyError α
  attempts : Nat
  sleeps : List ℚ
deriving Repr, DecidableEq

/-- The loop of `SupabaseService._retry_supabase_call`
(src/backend/services/supabase_service.py:724-762), unrolled from a
given attempt index with explicit remaining-iteration fuel
(`remaining = maxRetries - attempt` at entry).  An attempt that raises a
non-transient error, or raises on the last attempt
(`attempt == max_retries - 1`), re-raises; otherwise the loop sleeps
`initial_delay * 2 ** attempt` and retries.  The fuel-exhausted case is
the fall-through after the loop (line 762), reachable only with
`max_retries = 0`. -/
def retrySupabaseCallFrom {α : Type} (op : Nat → Attempt α) (maxRetries : Nat)
    (initialDelay : ℚ) : Nat → Nat → RetryTrace α
  | _, 0 => ⟨.error ⟨"Retry failed", none, "Exception"⟩, 0, []⟩
  | attempt, remaining + 1 =>
    match op attempt with
    | .ok a => ⟨.ok a, 1, []⟩
    | .raise e =>
      if !isTransientSupabase e || attempt == maxRetries - 1 then
        ⟨.error e, 1, []⟩
      else
        let delay := initialDelay * 2 ^ attempt
        let rest := retrySupabaseCallFrom op maxRetries initialDelay (attempt + 1) remaining
        ⟨rest.result, rest.attempts + 1, delay :: rest.sleeps⟩

/-- Embeds `SupabaseService._retry_supabase_call` with its default
arguments `max_retries=3`, `initial_delay=0.5`
(src/backend/services/supabase_service.py:724). -/
def retry_supabase_call {α : Type} (op : Nat → Attempt α) (maxRetries : Nat)
    (initialDelay : ℚ) : RetryTrace α :=
  retrySupabaseCallFrom op maxRetries initialDelay 0 maxRetries

/-- Trace of a `_retry_operation` run: the returned `(result, error)`
pair, the number of attempts and the sleeps (in seconds). -/
structure RetryOpTrace (α : Type) where
  result : Option α
  error : Option PyError
  attempts : Nat
  sleeps : List ℚ
deriving Repr, DecidableEq

/-- The loop of `SupabaseService._retry_operation`
(src/backend/services/supabase_service.py:34-74), same unrolling scheme
as `retrySupabaseCallFrom`.  On a connection error before the last
attempt it sleeps `initial_delay * 2 ** attempt` and retries; otherwise
it breaks and returns `(None, last_error)`.  Fuel exhaustion is the
loop running zero iterations, returning `(None, None)`. -/
def retryOperationFrom {α : Type} (op : Nat → Attempt α) (maxRetries : Nat)
    (initialDelay : ℚ) : Nat → Nat → RetryOpTrace α
  | _, 0 => ⟨none, none, 0, []⟩
  | attempt, remaining + 1 =>
    match op attempt with
    | .ok a => ⟨some a, none, 1, []⟩
    | .raise e =>
      if is_connection_error e && attempt < maxRetries - 1 then
        let delay := initialDelay * 2 ^ attempt
        let rest := retryOperationFrom op maxRetries initialDelay (attempt + 1) remaining
        ⟨rest.result, rest.error, rest.attempts + 1, delay :: rest.sleeps⟩
      else ⟨none, some e, 1, []⟩

/-- Embeds `SupabaseService._retry_operation` with its default arguments
`max_retries=3`, `initial_delay=0.5`
(src/backend/services/supabase_service.py:34-74). -/
def retry_operation {α : Type} (op : Nat → Attempt α) (maxRetries : Nat)
    (initialDelay : ℚ) : RetryOpTrace α :=
  retryOperationFrom op maxRetries initialDelay 0 maxRetries

/-- A scalar JSON value of a settings payload.  The health-profile
settings compared by the changed-fields diff hold scalar fields
(`age`, `gender`, `height`, ...); the diff itself only tests values for
equality of their canonical serialization (`json.dumps(..., sort_keys=True)`),
which on this domain is value equality. -/
inductive JValue where
  | null
  | bool (b : Bool)
  | num (n : Int)
  | str (s : String)
deriving Repr, DecidableEq

/-- Python `dict.get(key)` on a JSON object deserialized by
`json.loads`: a missing key and a JSON `null` value both yield `None`. -/
def pyGetVal (d : List (String × JValue)) (key : String) : Option JValue :=
  match d.find? (fun p => p.1 == key) with
  | none => none
  | some p => if p.2 == JValue.null then none else some p.2

/-- Comparison of `json.dumps(v, sort_keys=True) if v is not None else None`
values (src/backend/services/supabase_service.py:1147-1149): both absent,
or both present with equal serialization. -/
def dumpsEq : Option JValue → Option JValue → Bool
  | none, none => true
  | some a, some b => a == b
  | _, _ => false

/-- Python `str.isdigit()`: non-empty and all digit characters. -/
def pyIsDigit (s : String) : Bool :=
  !s.toList.isEmpty && s.toList.all Char.isDigit

/-- The fixed allow-list `expected_fields`
(src/backend/services/supabase_service.py:1134-1135). -/
def expected_fields : List String :=
  ["hasSickness", "sicknessType", "age", "gender", "height", "weight",
   "waist", "activityLevel", "goal", "location"]

/-- The second and third fallback filters of the changed-fields
computation: keys with a non-`None`, non-empty-string value, restricted
by a key predicate. -/
def valuedKeys (nw : List (String × JValue)) (keep : String → Bool) : List String :=
  (nw.filter (fun p =>
    keep p.1 && !(p.2 == JValue.null) && !(p.2 == JValue.str ""))).map Prod.fst

/-- Embeds the `changed_fields` computation of
`SupabaseService.save_user_settings`
(src/backend/services/supabase_service.py:1129-1171), between the
previous stored settings and the normalized new settings, both JSON
objects.  The key union is iterated as a Python `set`; the model
deduplicates keeping first occurrences (the claims compare the result as
a set of names).  A key is tracked when it is an expected field name or
not all-digits, and is changed when the serialized old and new values
differ.  When the previous settings are empty, or no change is detected,
the fallback branches list the expected (then all non-digit) keys that
carry a value. -/
def changedFields (existing nw : List (String × JValue)) : List String :=
  let cf :=
    if 0 < existing.length then
      let allKeys := (existing.map Prod.fst ++ nw.map Prod.fst).eraseDups
      allKeys.filter (fun key =>
        (expected_fields.contains key || !(pyIsDigit key)) &&
        !(dumpsEq (pyGetVal existing key) (pyGetVal nw key)))
    else
      valuedKeys nw (fun k => expected_fields.contains k)
  let cf2 := if cf.isEmpty then valuedKeys nw (fun k => expected_fields.contains k) else cf
  if cf2.isEmpty then valuedKeys nw (fun k => !(pyIsDigit k)) else cf2

/-- A `user_settings_history` row. -/
structure UserSettingsHistoryRow where
  user_id : String
  settings_type : String
  settings_data : List (String × JValue)
  previous_settings_data : List (String × JValue)
  changed_fields : List String
  created_at : Int
  created_by : String
deriving Repr, DecidableEq

/-- Embeds the history-row construction of
`SupabaseService.save_user_settings`
(src/backend/services/supabase_service.py:1282-1309): the row appended
to `user_settings_history` after a save, capturing the persisted data,
the previous data (`{}` when there was none) and the changed-field
list. -/
def save_user_settings_history_row (userId settingsType : String)
    (existing nw : List (String × JValue)) (timestamp : Int) :
    UserSettingsHistoryRow :=
  { user_id := userId
    settings_type := settingsType
    settings_data := nw
    previous_settings_data := if existing.isEmpty then [] else existing
    changed_fields := changedFields existing nw
    created_at := timestamp
    created_by := userId }

/-- Outcome of one attempt of the settings-history query
(src/backend/routes/user_settings_routes.py:212-264): success, a typed
httpx/httpcore connection error (first except clause), or any other
exception (second except clause). -/
inductive HistoryQueryOutcome where
  | ok (rows : List UserSettingsHistoryRow)
  | typedConnErr (e : PyError)
  | otherErr (e : PyError)

/-- The string-matching connection-error classification of the retry
loop of `get_user_settings_history`
(src/backend/routes/user_settings_routes.py:242-249); the last disjunct
is case-sensitive in the source. -/
def routeInnerConnErr (e : PyError) : Bool :=
  let s := lowerChars e.msg
  charsContain s "resource temporarily unavailable" ||
  charsContain s "connectionterminated" ||
  charsContain s "readerror" ||
  charsContain s "remoteprotocolerror" ||
  charsContain s "[errno 35]" ||
  charsContain e.msg.toList "ConnectionTerminated"

/-- The connection-error classification of the outer exception handler
of `get_user_settings_history`
(src/backend/routes/user_settings_routes.py:316-325), for exceptions
raised out of the retry loop (always the untyped kind: the typed kind
breaks out of the loop instead of raising). -/
def routeOuterConnErr (e : PyError) : Bool :=
  let s := lowerChars e.msg
  charsContain s "resource temporarily unavailable" ||
  charsContain s "connectionterminated" ||
  charsContain s "readerror" ||
  charsContain s "remoteprotocolerror" ||
  charsContain s "[errno 35]" ||
  e.typeName == "RemoteProtocolError" ||
  e.typeName == "ReadError"

/-- Result of the retry loop of `get_user_settings_history`: rows
obtained, loop finished without a result (`result is None`), or an
exception propagated to the outer handler. -/
inductive FetchResult where
  | gotRows (rows : List UserSettingsHistoryRow)
  | gaveUp
  | raised (e : PyError)

/-- The retry loop of `get_user_settings_history`
(src/backend/routes/user_settings_routes.py:206-264), unrolled with
explicit fuel as in the retry helpers.  Typed connection errors are
always retried and, on the last attempt, break with no result; other
exceptions are retried only when string-classified as connection errors
and otherwise re-raised. -/
def settingsHistoryFetchFrom (op : Nat → HistoryQueryOutcome) (maxRetries : Nat) :
    Nat → Nat → FetchResult
  | _, 0 => .gaveUp
  | attempt, remaining + 1 =>
    match op attempt with
    | .ok rows => .gotRows rows
    | .typedConnErr _ =>
      if attempt < maxRetries - 1 then
        settingsHistoryFetchFrom op maxRetries (attempt + 1) remaining
      else .gaveUp
    | .otherErr e =>
      if routeInnerConnErr e && attempt < maxRetries - 1 then
        settingsHistoryFetchFrom op maxRetries (attempt + 1) remaining
      else .raised e

/-- The response of the settings-history endpoint: HTTP status, the
`status` field of the JSON body, the history list and its count. -/
structure SettingsHistoryResponse where
  httpStatus : Nat
  bodyStatus : String
  history : List UserSettingsHistoryRow
  count : Nat
deriving Repr, DecidableEq

/-- Embeds `get_user_settings_history`
(src/backend/routes/user_settings_routes.py:177-339) after
authentication: run the query with up to 3 attempts; connection
failures (loop exhausted, or a string-classified connection error caught
by the outer handler) are downgraded to HTTP 200 with an empty history;
only a non-connection exception yields HTTP 500. -/
def get_user_settings_history (op : Nat → HistoryQueryOutcome) :
    SettingsHistoryResponse :=
  match settingsHistoryFetchFrom op 3 0 3 with
  | .gotRows rows =>
    if !rows.isEmpty then ⟨200, "success", rows, rows.length⟩
    else ⟨200, "success", [], 0⟩
  | .gaveUp => ⟨200, "success", [], 0⟩
  | .raised e =>
    if routeOuterConnErr e then ⟨200, "success", [], 0⟩
    else ⟨500, "error", [], 0⟩

/-- Classifies one attempt outcome of the settings-history query as a
transient connection error, per the classification the route itself
applies: the typed httpx/httpcore connection errors are always treated
as transient, other exceptions via the string matching of
`routeInnerConnErr`. -/
def attemptTransient : HistoryQueryOutcome → Prop
  | .ok _ => False
  | .typedConnErr _ => True
  | .otherErr e => routeInnerConnErr e = true

/-- The state-changing operations of the embedded API surface that can
touch the `invitations` table or any other table, one constructor per
endpoint. -/
inductive Op where
  | invite (userId enterpriseId : String) (req : Option InviteRequest) (now : Int)
      (newInvId newToken : String) (emailCheckThrew : Bool)
  | cancel (invitationId userId : String)
  | accept (token : Option String) (authUser : Option String) (now : Int)
      (newMembershipId : String)
  | complete (invitationId : Option String) (userId : String) (now : Int)
      (newMembershipId : String)
  | autoAccept (userId userEmail : String) (now : Int) (mkId : Nat → String)
  | createPlan (adminId enterpriseId targetUserId : String) (req : MealPlanRequest)
      (now : Int) (newPlanId : String) (adminEmail : Option String)
  | approvePlan (adminId enterpriseId planId : String) (now : Int)
  | rejectPlan (adminId enterpriseId planId : String)

/-- The state transition of one operation. -/
def applyOp : Op → DB → DB
  | .invite u e r n ni nt t, db => (invite_user db u e r n ni nt t).2
  | .cancel i u, db => (cancel_invitation db i u).2
  | .accept t a n m, db => (accept_invitation db t a n m).2
  | .complete i u n m, db => (complete_invitation db i u n m).2
  | .autoAccept u em n mk, db => (auto_accept_pending_invitations db u em n mk).2
  | .createPlan a e t r n p m, db => (create_user_meal_plan db a e t r n p m).2
  | .approvePlan a e p n, db => (approve_meal_plan db a e p n).2
  | .rejectPlan a e p, db => (reject_meal_plan db a e p).2

/-- Side condition: an invite operation supplies a database-generated
invitation id, fresh with respect to the current table. -/
def opFreshInvId : Op → DB → Bool
  | .invite _ _ _ _ newInvId _ _, db => db.invitations.all (fun i => i.id != newInvId)
  | _, _ => true

/-- The allowed evolutions of one invitation status across one
operation: unchanged, or a transition of the pending state to accepted
or cancelled. -/
def statusStep (s t : String) : Prop :=
  t = s ∨ (s = "pending" ∧ (t = "accepted" ∨ t = "cancelled"))

/-- Concrete fixture: one enterprise owned by `owner1`, one member
`u1`, one pending invitation with token `tok1` expiring at time 100. -/
def egInv : Invitation :=
  { id := "i1"
    enterprise_id := "e1"
    email := "pat@example.com"
    invited_by := "owner1"
    invitation_token := "tok1"
    role := "patient"
    message := none
    status := "pending"
    expires_at := 100
    accepted_at := none
    accepted_by := none }

/-- Concrete fixture membership row. -/
def egMem : OrganizationUser :=
  { id := "m1"
    enterprise_id := "e1"
    user_id := "u1"
    role := "patient"
    status := "active"
    joined_at := 0 }

/-- Concrete fixture database. -/
def egDB : DB :=
  { enterprises := [{ id := "e1", name := "Clinic", created_by := "owner1",
                      max_users := some 10 }]
    organization_users := [egMem]
    invitations := [egInv]
    meal_plans := []
    accounts := [{ id := "owner1", email := "owner@example.com" },
                 { id := "u1", email := "pat@example.com" }] }

/-- Concrete fresh-id supply for auto-acceptance fixtures. -/
def egMkId : Nat → String := fun _ => "am0"

/-- Fixture for the user-limit counterexample: `max_users = 1` and a
single membership row whose status is `inactive` (zero ACTIVE
memberships). -/
def c2DB : DB :=
  { enterprises := [{ id := "e2", name := "Org", created_by := "owner2",
                      max_users := some 1 }]
    organization_users := [{ id := "m2", enterprise_id := "e2", user_id := "u2",
                             role := "patient", status := "inactive", joined_at := 0 }]
    invitations := []
    meal_plans := []
    accounts := [{ id := "owner2", email := "o2@example.com" }] }

/-- Fixture invite request against `c2DB`. -/
def c2Req : InviteRequest :=
  { email := some "new@example.com", role := none, message := none }

/-- Fixture for the owner-membership trace: an enterprise owned by
`owner1` with no members, no invitations, and the owner account. -/
def c8DB0 : DB :=
  { enterprises := [{ id := "ent1", name := "Org", created_by := "owner1",
                      max_users := some 10 }]
    organization_users := []
    invitations := []
    meal_plans := []
    accounts := [{ id := "owner1", email := "owner@example.com" }] }

/-- Fixture invite request for the owner-membership trace: a fresh email
with no registered account. -/
def c8Req : InviteRequest :=
  { email := some "fresh@example.com", role := some "patient", message := none }

/-- State after the owner invites the fresh email. -/
def c8DB1 : DB := (invite_user c8DB0 "owner1" "ent1" (some c8Req) 0 "invA" "tokA" false).2

/-- State after the owner themself accepts the invitation token while
authenticated. -/
def c8DB2 : DB := (accept_invitation c8DB1 (some "tokA") (some "owner1") 1 "memA").2

/-- The membership row the acceptance inserts for the owner. -/
def c8Mem : OrganizationUser :=
  { id := "memA"
    enterprise_id := "ent1"
    user_id := "owner1"
    role := "patient"
    status := "active"
    joined_at := 1 }

/-- Fixture always-transient failing operation for the retry helpers. -/
def cErrTransient : PyError := ⟨"connection timeout", none, "ReadError"⟩

/-- Fixture operation raising the transient error on every attempt. -/
def cOpTransient : Nat → Attempt Unit := fun _ => .raise cErrTransient

/-- Fixture non-transient error. -/
def cErrFatal : PyError := ⟨"permission denied for table", none, "APIError"⟩

/-- Fixture operation raising the non-transient error on every attempt. -/
def cOpFatal : Nat → Attempt Unit := fun _ => .raise cErrFatal

/-- Fixture settings-history query failing with a typed connection error
on every attempt. -/
def cHistOp : Nat → HistoryQueryOutcome :=
  fun _ => .typedConnErr ⟨"ConnectionTerminated", none, "RemoteProtocolError"⟩

/-- Fixture meal-plan request. -/
def c1Req : MealPlanRequest :=
  { name := some "Week 1", start_date := some "2025-01-01",
    end_date := some "2025-01-07", meal_plan := some "plan-json",
    has_sickness := false, sickness_type := "", health_assessment := none }

/-- The row the fixture admin creation inserts. -/
def c1Plan : MealPlan :=
  { id := "p1", user_id := "u1", name := some "Week 1",
    start_date := some "2025-01-01", end_date := some "2025-01-07",
    meal_plan := some "plan-json", has_sickness := false, sickness_type := "",
    health_assessment := none, creator_email := none, is_created_by_user := false,
    is_approved := false, created_at := 5, updated_at := 5 }

/-- State after the fixture admin creation. -/
def c1DB1 : DB := { egDB with meal_plans := egDB.meal_plans ++ [c1Plan] }

/-!
## Theorems

Helper lemmas first, then one theorem per claim (with a witness when the
theorem carries hypotheses).
-/

/-- Substring containment is preserved by a character map: if the needle
occurs in the haystack, the mapped needle occurs in the mapped
haystack. -/
theorem charsContain_map (f : Char → Char) (l : List Char) (pat mappedPat : String)
    (hp : pat.toList.map f = mappedPat.toList)
    (h : charsContain l pat = true) : charsContain (l.map f) mappedPat = true := by
  unfold charsContain at h ⊢
  rw [decide_eq_true_eq] at h ⊢
  obtain ⟨s, t, hst⟩ := h
  refine ⟨s.map f, t.map f, ?_⟩
  rw [← hp, ← hst]
  simp [List.map_append]

/-- Every error the retry loop of the settings-history route classifies
as a connection error is also classified as a connection error by the
outer handler of the route. -/
theorem routeInner_imp_outer (e : PyError) (h : routeInnerConnErr e = true) :
    routeOuterConnErr e = true := by
  unfold routeInnerConnErr at h
  unfold routeOuterConnErr
  simp only [Bool.or_eq_true] at h ⊢
  rcases h with ((((h | h) | h) | h) | h) | h
  · exact Or.inl (Or.inl (Or.inl (Or.inl (Or.inl (Or.inl h)))))
  · exact Or.inl (Or.inl (Or.inl (Or.inl (Or.inl (Or.inr h)))))
  · exact Or.inl (Or.inl (Or.inl (Or.inl (Or.inr h))))
  · exact Or.inl (Or.inl (Or.inl (Or.inr h)))
  · exact Or.inl (Or.inl (Or.inr h))
  · refine Or.inl (Or.inl (Or.inl (Or.inl (Or.inl (Or.inr ?_)))))
    exact charsContain_map Char.toLower e.msg.toList "ConnectionTerminated"
      "connectionterminated" (by decide) h

/-- Filtering by a conjunction keeps no more elements than filtering by
the first conjunct alone. -/
theorem length_filter_and_le {α : Type} (p q : α → Bool) (l : List α) :
    (l.filter (fun a => p a && q a)).length ≤ (l.filter p).length := by
  induction l with
  | nil => simp
  | cons x xs ih =>
    by_cases hp : p x <;> by_cases hq : q x <;> simp [hp, hq] <;> omega

/-- C9: when every attempt of the settings-history query fails with an
error the route classifies as a transient connection error, the endpoint
responds HTTP 200 with body status `success`, an empty history list and
count 0, not an error status. -/
theorem settings_history_transient_downgrade (op : Nat → HistoryQueryOutcome)
    (h : ∀ i, i < 3 → attemptTransient (op i)) :
    get_user_settings_history op =
      { httpStatus := 200, bodyStatus := "success", history := [], count := 0 } := by
  have h0 := h 0 (by norm_num)
  have h1 := h 1 (by norm_num)
  have h2 := h 2 (by norm_num)
  unfold get_user_settings_history
  unfold settingsHistoryFetchFrom
  cases hop0 : op 0 with
  | ok rows => rw [hop0] at h0; exact absurd h0 (by simp [attemptTransient])
  | typedConnErr e0 =>
    simp only [show ((0:Nat) < 3 - 1) = True by norm_num, if_true]
    unfold settingsHistoryFetchFrom
    cases hop1 : op 1 with
    | ok rows => rw [hop1] at h1; exact absurd h1 (by simp [attemptTransient])
    | typedConnErr e1 =>
      simp only [show ((1:Nat) < 3 - 1) = True by norm_num, if_true]
      unfold settingsHistoryFetchFrom
      cases hop2 : op 2 with
      | ok rows => rw [hop2] at h2; exact absurd h2 (by simp [attemptTransient])
      | typedConnErr e2 => simp [show ¬ ((2:Nat) < 3 - 1) by norm_num]
      | otherErr e2 =>
        rw [hop2] at h2
        have ht2 : routeInnerConnErr e2 = true := h2
        simp [show ¬ ((2:Nat) < 3 - 1) by norm_num, routeInner_imp_outer e2 ht2]
    | otherErr e1 =>
      rw [hop1] at h1
      have ht1 : routeInnerConnErr e1 = true := h1
      simp only [ht1, show ((1:Nat) < 3 - 1) = True by norm_num, Bool.true_and,
        decide_True, if_true]
      unfold settingsHistoryFetchFrom
      cases hop2 : op 2 with
      | ok rows => rw [hop2] at h2; exact absurd h2 (by simp [attemptTransient])
      | typedConnErr e2 => simp [show ¬ ((2:Nat) < 3 - 1) by norm_num]
      | otherErr e2 =>
        rw [hop2] at h2
        have ht2 : routeInnerConnErr e2 = true := h2
        simp [show ¬ ((2:Nat) < 3 - 1) by norm_num, routeInner_imp_outer e2 ht2]
  | otherErr e0 =>
    rw [hop0] at h0
    have ht0 : routeInnerConnErr e0 = true := h0
    simp only [ht0, show ((0:Nat) < 3 - 1) = True by norm_num, Bool.true_and,
      decide_True, if_true]
    unfold settingsHistoryFetchFrom
    cases hop1 : op 1 with
    | ok rows => rw [hop1] at h1; exact absurd h1 (by simp [attemptTransient])
    | typedConnErr e1 =>
      simp only [show ((1:Nat) < 3 - 1) = True by norm_num, if_true]
      unfold settingsHistoryFetchFrom
      cases hop2 : op 2 with
      | ok rows => rw [hop2] at h2; exact absurd h2 (by simp [attemptTransient])
      | typedConnErr e2 => simp [show ¬ ((2:Nat) < 3 - 1) by norm_num]
      | otherErr e2 =>
        rw [hop2] at h2
        have ht2 : routeInnerConnErr e2 = true := h2
        simp [show ¬ ((2:Nat) < 3 - 1) by norm_num, routeInner_imp_outer e2 ht2]
    | otherErr e1 =>
      rw [hop1] at h1
      have ht1 : routeInnerConnErr e1 = true := h1
      simp only [ht1, show ((1:Nat) < 3 - 1) = True by norm_num, Bool.true_and,
        decide_True, if_true]
      unfold settingsHistoryFetchFrom
      cases hop2 : op 2 with
      | ok rows => rw [hop2] at h2; exact absurd h2 (by simp [attemptTransient])
      | typedConnErr e2 => simp [show ¬ ((2:Nat) < 3 - 1) by norm_num]
      | otherErr e2 =>
        rw [hop2] at h2
        have ht2 : routeInnerConnErr e2 = true := h2
        simp [show ¬ ((2:Nat) < 3 - 1) by norm_num, routeInner_imp_outer e2 ht2]

/-- Witness for C9 at a concrete always-failing query. -/
theorem settings_history_transient_downgrade_witness :
    get_user_settings_history cHistOp =
      { httpStatus := 200, bodyStatus := "success", history := [], count := 0 } :=
  settings_history_transient_downgrade cHistOp
    (fun i _ => by simp [cHistOp, attemptTransient])

/-- C4: for a save whose previous stored settings are the object with the
single field `age = 30` and whose new settings set `age = 31`, the
appended history row has `changed_fields` equal to exactly the
one-element list containing `age`. -/
theorem settings_history_changed_fields_age :
    (save_user_settings_history_row "user1" "health_profile"
      [("age", JValue.num 30)] [("age", JValue.num 31)] 0).changed_fields
      = ["age"] := by decide

/-- C5: a pending invitation whose expiry lies strictly in the past is
rejected by the verify endpoint with the expired error, even though the
stored status is still pending. -/
theorem verify_expired_pending_rejected (db : DB) (token : String) (now : Int)
    (inv : Invitation)
    (htok : token ≠ "")
    (hfind : db.invitations.find? (fun i => i.invitation_token == token) = some inv)
    (hpend : inv.status = "pending")
    (hexp : inv.expires_at < now) :
    verify_invitation db token now = VerifyResult.expired := by
  unfold verify_invitation
  have ht : (token == "") = false := by simpa using htok
  rw [ht]
  simp only [Bool.false_eq_true, if_false, hfind]
  simp [hpend, hexp]

/-- Witness for C5 at the concrete fixture: the fixture invitation is
pending, expires at 100, verified at 200. -/
theorem verify_expired_pending_rejected_witness :
    verify_invitation egDB "tok1" 200 = VerifyResult.expired :=
  verify_expired_pending_rejected egDB "tok1" 200 egInv (by decide) (by decide)
    (by decide) (by decide)

/-- Shape of the invitations table across one invite request: either
unchanged, or extended by exactly one new row whose id is the supplied
fresh id, whose status is pending and whose role passed the allow-list
validation. -/
theorem invite_user_invitations_shape (db : DB) (userId enterpriseId : String)
    (req : Option InviteRequest) (now : Int) (ni nt : String) (thr : Bool) :
    (invite_user db userId enterpriseId req now ni nt thr).2.invitations
      = db.invitations ∨
    ∃ inv, (invite_user db userId enterpriseId req now ni nt thr).2.invitations
        = db.invitations ++ [inv] ∧ inv.id = ni ∧ inv.status = "pending" ∧
        ALLOWED_ROLES.contains inv.role = true := by
  unfold invite_user
  dsimp only
  repeat' split
  all_goals try exact Or.inl rfl
  refine Or.inr ⟨_, rfl, rfl, rfl, ?_⟩
  simp_all

/-- C10: the invite endpoint defaults a missing role to patient,
normalizes doctors to doctor, accepts only the four allow-listed roles
(admin is not one of them), rejects any other normalized role with the
validation error before touching the database, and consequently never
stores an invitation whose role is outside the allow-list. -/
theorem invite_role_allowlist (db : DB) (userId enterpriseId : String)
    (data : InviteRequest) (now : Int) (ni nt : String) (thr : Bool)
    (hid : (enterpriseId == "" || enterpriseId == "undefined" ||
            enterpriseId == "null") = false)
    (hemail : (pyStrip (data.email.getD "") == "") = false)
    (hrole : ALLOWED_ROLES.contains (normalizeRole data.role) = false) :
    normalizeRole none = "patient" ∧
    normalizeRole (some "doctors") = "doctor" ∧
    ALLOWED_ROLES.contains "admin" = false ∧
    invite_user db userId enterpriseId (some data) now ni nt thr
      = (InviteResult.invalidRole (normalizeRole data.role), db) ∧
    (∀ (u2 e2 : String) (req2 : Option InviteRequest) (now2 : Int) (ni2 nt2 : String)
       (thr2 : Bool) (inv : Invitation),
       inv ∈ (invite_user db u2 e2 req2 now2 ni2 nt2 thr2).2.invitations →
       inv ∈ db.invitations ∨ ALLOWED_ROLES.contains inv.role = true) := by
  refine ⟨by decide, by decide, by decide, ?_, ?_⟩
  · have hrole2 : normalizeRole data.role ∉ ALLOWED_ROLES := by simpa using hrole
    unfold invite_user
    rw [hid]
    simp [hemail, hrole2]
  · intro u2 e2 req2 now2 ni2 nt2 thr2 inv hmem
    rcases invite_user_invitations_shape db u2 e2 req2 now2 ni2 nt2 thr2 with
      hsh | ⟨v, hsh, _, _, hrole2⟩
    · rw [hsh] at hmem
      exact Or.inl hmem
    · rw [hsh] at hmem
      rcases List.mem_append.mp hmem with hL | hR
      · exact Or.inl hL
      · simp only [List.mem_singleton] at hR
        subst hR
        exact Or.inr hrole2

/-- Witness for C10: a request carrying role admin against the fixture
database is rejected with the validation error and the state is
unchanged. -/
theorem invite_role_allowlist_witness :
    normalizeRole none = "patient" ∧
    normalizeRole (some "doctors") = "doctor" ∧
    ALLOWED_ROLES.contains "admin" = false ∧
    invite_user egDB "owner1" "e1"
      (some { email := some "adminwannabe@example.com", role := some "admin",
              message := none }) 0 "i7" "tok7" false
      = (InviteResult.invalidRole
          (normalizeRole (some "admin")), egDB) ∧
    (∀ (u2 e2 : String) (req2 : Option InviteRequest) (now2 : Int) (ni2 nt2 : String)
       (thr2 : Bool) (inv : Invitation),
       inv ∈ (invite_user egDB u2 e2 req2 now2 ni2 nt2 thr2).2.invitations →
       inv ∈ egDB.invitations ∨ ALLOWED_ROLES.contains inv.role = true) :=
  invite_role_allowlist egDB "owner1" "e1"
    { email := some "adminwannabe@example.com", role := some "admin", message := none }
    0 "i7" "tok7" false (by decide) (by decide) (by decide)

/-- Counterexample for C2: the limit comparison does not use the
active-membership count.  In `c2DB` the enterprise has `max_users = 1`,
zero ACTIVE memberships, and one inactive membership row; the invite
request is nevertheless rejected with the limit-reached error (and no
invitation row is inserted), so the count used is not the number of
active memberships. -/
theorem invite_limit_counts_inactive_members :
    invite_user c2DB "owner2" "e2" (some c2Req) 0 "i9" "tok9" false
      = (InviteResult.limitReached 1, c2DB) ∧
    specActiveMembershipCount c2DB "e2" = 0 ∧
    specActiveMembershipCount c2DB "e2" <
      (c2DB.enterprises.head?.map (fun e => e.max_users.getD 100)).getD 0 ∧
    c2DB.invitations = [] := by decide

/-- C2 (amended): the count the invite endpoint compares against
`max_users` is the number of ALL `organization_users` rows of the
enterprise, regardless of status.  Whenever that count reaches
`max_users` — and hence in particular whenever the active-membership
count reaches `max_users`, the active rows being a subset — the request
is rejected with the limit-reached error and the state (so in particular
the invitations table) is unchanged. -/
theorem invite_limit_uses_all_membership_rows (db : DB)
    (userId enterpriseId : String) (data : InviteRequest) (now : Int)
    (newInvId newToken : String) (thr : Bool) (e : Enterprise)
    (hid : (enterpriseId == "" || enterpriseId == "undefined" ||
            enterpriseId == "null") = false)
    (hemail : (pyStrip (data.email.getD "") == "") = false)
    (hrole : ALLOWED_ROLES.contains (normalizeRole data.role) = true)
    (hent : db.enterprises.find? (fun x => x.id == enterpriseId) = some e)
    (hperm : (check_user_is_org_admin db userId enterpriseId).1 = true)
    (hlimit : e.max_users.getD 100 ≤
      (db.organization_users.filter (fun m => m.enterprise_id == enterpriseId)).length) :
    invite_user db userId enterpriseId (some data) now newInvId newToken thr
      = (InviteResult.limitReached (e.max_users.getD 100), db) ∧
    specActiveMembershipCount db enterpriseId ≤
      (db.organization_users.filter (fun m => m.enterprise_id == enterpriseId)).length := by
  constructor
  · unfold invite_user
    rw [hid]
    simp only [Bool.false_eq_true, if_false, hemail, hrole, Bool.not_true, hent, hperm]
    simp [hlimit]
  · unfold specActiveMembershipCount
    exact length_filter_and_le (fun m => m.enterprise_id == enterpriseId)
      (fun m => m.status == "active") db.organization_users

/-- Witness for C2 (amended) at a concrete state: `c2DB` has one
membership row (inactive) and `max_users = 1`. -/
theorem invite_limit_uses_all_membership_rows_witness :
    invite_user c2DB "owner2" "e2" (some c2Req) 0 "i9" "tok9" false
      = (InviteResult.limitReached 1, c2DB) ∧
    specActiveMembershipCount c2DB "e2" ≤
      (c2DB.organization_users.filter (fun m => m.enterprise_id == "e2")).length :=
  invite_limit_uses_all_membership_rows c2DB "owner2" "e2" c2Req 0 "i9" "tok9" false
    { id := "e2", name := "Org", created_by := "owner2", max_users := some 1 }
    (by decide) (by decide) (by decide) (by decide) (by decide) (by decide)

/-- Counterexample for C3: with the default `max_retries = 3` and
`initial_delay = 0.5`, an operation failing with a transient connection
error on every attempt is attempted three times with backoff sleeps of
0.5s and 1s only — the failure is surfaced without a 2s sleep ever
happening, so the claimed delay sequence 0.5s, 1s, 2s is not what the
helper performs. -/
theorem retry_sleeps_only_half_and_one :
    retry_supabase_call cOpTransient 3 (1/2)
      = { result := Except.error cErrTransient, attempts := 3, sleeps := [1/2, 1] } ∧
    (retry_supabase_call cOpTransient 3 (1/2)).sleeps ≠ [1/2, 1, 2] ∧
    isTransientSupabase cErrTransient = true := by
  have ht : isTransientSupabase cErrTransient = true := by decide
  have hrun : retry_supabase_call cOpTransient 3 (1/2)
      = { result := Except.error cErrTransient, attempts := 3, sleeps := [1/2, 1] } := by
    simp [retry_supabase_call, retrySupabaseCallFrom, cOpTransient, ht]
  refine ⟨hrun, ?_, ht⟩
  rw [hrun]
  simp

/-- C3 (amended): for both retry helpers with their default arguments,
an operation whose raised errors are always classified transient is
attempted exactly 3 times with backoff sleeps of 0.5s then 1s between
attempts, after which the last failure is surfaced; an operation whose
first raised error is not classified transient has its error surfaced
immediately after 1 attempt with no sleep. -/
theorem retry_backoff_behavior {α : Type} (op opF : Nat → Attempt α)
    (e0 e1 e2 f0 : PyError)
    (h0 : op 0 = Attempt.raise e0) (h1 : op 1 = Attempt.raise e1)
    (h2 : op 2 = Attempt.raise e2)
    (t0 : isTransientSupabase e0 = true) (t1 : isTransientSupabase e1 = true)
    (c0 : is_connection_error e0 = true) (c1 : is_connection_error e1 = true)
    (g0 : opF 0 = Attempt.raise f0)
    (tf : isTransientSupabase f0 = false) (cf : is_connection_error f0 = false) :
    retry_supabase_call op 3 (1/2)
      = { result := Except.error e2, attempts := 3, sleeps := [1/2, 1] } ∧
    retry_operation op 3 (1/2)
      = { result := none, error := some e2, attempts := 3, sleeps := [1/2, 1] } ∧
    retry_supabase_call opF 3 (1/2)
      = { result := Except.error f0, attempts := 1, sleeps := [] } ∧
    retry_operation opF 3 (1/2)
      = { result := none, error := some f0, attempts := 1, sleeps := [] } := by
  refine ⟨?_, ?_, ?_, ?_⟩
  · simp [retry_supabase_call, retrySupabaseCallFrom, h0, h1, h2, t0, t1]
  · simp [retry_operation, retryOperationFrom, h0, h1, h2, c0, c1]
  · simp [retry_supabase_call, retrySupabaseCallFrom, g0, tf]
  · simp [retry_operation, retryOperationFrom, g0, cf]

/-- Witness for C3 (amended) at concrete operations: the always-transient
operation and the immediately-fatal operation. -/
theorem retry_backoff_behavior_witness :
    retry_supabase_call cOpTransient 3 (1/2)
      = { result := Except.error cErrTransient, attempts := 3, sleeps := [1/2, 1] } ∧
    retry_operation cOpTransient 3 (1/2)
      = { result := none, error := some cErrTransient, attempts := 3, sleeps := [1/2, 1] } ∧
    retry_supabase_call cOpFatal 3 (1/2)
      = { result := Except.error cErrFatal, attempts := 1, sleeps := [] } ∧
    retry_operation cOpFatal 3 (1/2)
      = { result := none, error := some cErrFatal, attempts := 1, sleeps := [] } :=
  retry_backoff_behavior cOpTransient cOpFatal cErrTransient cErrTransient cErrTransient
    cErrFatal rfl rfl rfl (by decide) (by decide) (by decide) (by decide) rfl
    (by decide) (by decide)

/-- A successful admin meal-plan creation returns the inserted row: it
carries the supplied fresh id, targets the requested user, is NOT
approved, and the new state appends exactly that row. -/
theorem create_user_meal_plan_created (db : DB) (a e t : String) (r : MealPlanRequest)
    (now : Int) (pid : String) (em : Option String) (plan : MealPlan) (db1 : DB)
    (h : create_user_meal_plan db a e t r now pid em
      = (CreatePlanResult.created plan, db1)) :
    plan.id = pid ∧ plan.user_id = t ∧ plan.is_approved = false ∧
    db1 = { db with meal_plans := db.meal_plans ++ [plan] } := by
  unfold create_user_meal_plan at h
  dsimp only at h
  repeat' split at h
  all_goals try (exfalso; exact CreatePlanResult.noConfusion (congrArg Prod.fst h))
  injection h with h1 h2
  injection h1 with hp
  subst hp
  subst h2
  exact ⟨rfl, rfl, rfl, rfl⟩

/-- A successful approval rewrites the table by setting `is_approved` on
the row with the given id. -/
theorem approve_meal_plan_approved (db : DB) (a e pid : String) (now : Int)
    (res : ApproveResult) (db2 : DB)
    (h : approve_meal_plan db a e pid now = (res, db2))
    (hres : res = ApproveResult.approved) :
    db2 = { db with meal_plans := db.meal_plans.map (fun p =>
      if p.id == pid then { p with is_approved := true, updated_at := now }
      else p) } := by
  subst hres
  unfold approve_meal_plan at h
  dsimp only at h
  repeat' split at h
  all_goals try (exfalso; exact ApproveResult.noConfusion (congrArg Prod.fst h))
  injection h with h1 h2
  exact h2.symm

/-- A successful rejection deletes the row with the given id from the
table. -/
theorem reject_meal_plan_rejected (db : DB) (a e pid : String)
    (res : RejectResult) (db3 : DB)
    (h : reject_meal_plan db a e pid = (res, db3))
    (hres : res = RejectResult.rejected) :
    db3 = { db with meal_plans := db.meal_plans.filter (fun p => p.id != pid) } := by
  subst hres
  unfold reject_meal_plan at h
  dsimp only at h
  repeat' split at h
  all_goals try (exfalso; exact RejectResult.noConfusion (congrArg Prod.fst h))
  injection h with h1 h2
  exact h2.symm

/-- C1: an admin-created meal plan is inserted with `is_approved = false`
and is invisible in the owning user's listing; the user-facing listing
only ever returns approved rows; after a successful approve the plan
appears in the owning user's listing; after a successful reject the row
is gone from every listing. -/
theorem meal_plan_approval_visibility (db : DB) (adminId eid uid : String)
    (req : MealPlanRequest) (now : Int) (pid : String) (adminEmail : Option String)
    (plan : MealPlan) (db1 : DB)
    (hfresh : ∀ p ∈ db.meal_plans, p.id ≠ pid)
    (hcreate : create_user_meal_plan db adminId eid uid req now pid adminEmail
      = (CreatePlanResult.created plan, db1)) :
    plan.is_approved = false ∧
    plan.user_id = uid ∧
    (∀ u p, p ∈ get_meal_plans db1 u → p.id ≠ pid) ∧
    (∀ (d : DB) u p, p ∈ get_meal_plans d u → p.is_approved = true) ∧
    (∀ adminId2 now2 res db2,
       approve_meal_plan db1 adminId2 eid pid now2 = (res, db2) →
       res = ApproveResult.approved →
       ∃ p, p ∈ get_meal_plans db2 uid ∧ p.id = pid) ∧
    (∀ adminId3 res db3,
       reject_meal_plan db1 adminId3 eid pid = (res, db3) →
       res = RejectResult.rejected →
       ∀ u p, p ∈ get_meal_plans db3 u → p.id ≠ pid) := by
  obtain ⟨hpid, huid, happr, hdb1⟩ :=
    create_user_meal_plan_created db adminId eid uid req now pid adminEmail plan db1 hcreate
  refine ⟨happr, huid, ?_, ?_, ?_, ?_⟩
  · intro u p hp
    unfold get_meal_plans at hp
    rw [hdb1] at hp
    simp only [List.mem_filter, List.mem_append, List.mem_singleton] at hp
    obtain ⟨hmem | hsing, hflt⟩ := hp
    · exact hfresh p hmem
    · subst hsing
      rw [Bool.and_eq_true] at hflt
      rw [happr] at hflt
      exact absurd hflt.2 (by simp)
  · intro d u p hp
    unfold get_meal_plans at hp
    simp only [List.mem_filter, Bool.and_eq_true] at hp
    exact hp.2.2
  · intro adminId2 now2 res db2 happly hres
    have hdb2 := approve_meal_plan_approved db1 adminId2 eid pid now2 res db2 happly hres
    refine ⟨{ plan with is_approved := true, updated_at := now2 }, ?_, hpid⟩
    unfold get_meal_plans
    rw [hdb2]
    simp only [List.mem_filter, List.mem_map]
    constructor
    · refine ⟨plan, ?_, ?_⟩
      · rw [hdb1]
        simp
      · rw [hpid]
        simp
    · simp [huid]
  · intro adminId3 res db3 happly hres u p hp
    have hdb3 := reject_meal_plan_rejected db1 adminId3 eid pid res db3 happly hres
    unfold get_meal_plans at hp
    rw [hdb3] at hp
    simp only [List.mem_filter] at hp
    simpa using hp.1.2

/-- Witness for C1: the fixture admin creates a plan for member `u1`;
the created row and successor state are the computed ones. -/
theorem meal_plan_approval_visibility_witness :
    c1Plan.is_approved = false ∧
    c1Plan.user_id = "u1" ∧
    (∀ u p, p ∈ get_meal_plans c1DB1 u → p.id ≠ "p1") ∧
    (∀ (d : DB) u p, p ∈ get_meal_plans d u → p.is_approved = true) ∧
    (∀ adminId2 now2 res db2,
       approve_meal_plan c1DB1 adminId2 "e1" "p1" now2 = (res, db2) →
       res = ApproveResult.approved →
       ∃ p, p ∈ get_meal_plans db2 "u1" ∧ p.id = "p1") ∧
    (∀ adminId3 res db3,
       reject_meal_plan c1DB1 adminId3 "e1" "p1" = (res, db3) →
       res = RejectResult.rejected →
       ∀ u p, p ∈ get_meal_plans db3 u → p.id ≠ "p1") :=
  meal_plan_approval_visibility egDB "owner1" "e1" "u1" c1Req 5 "p1" none c1Plan c1DB1
    (by decide) (by decide)

/-- Shape of the membership table across one accept request: either
unchanged, or extended by exactly one new row for a pair that had no
membership row before. -/
theorem accept_invitation_orgUsers_shape (db : DB) (tok : Option String)
    (au : Option String) (now : Int) (mid : String) :
    (accept_invitation db tok au now mid).2.organization_users
      = db.organization_users ∨
    ∃ e0 u0 role0,
      membershipRows db e0 u0 = [] ∧
      (accept_invitation db tok au now mid).2.organization_users
        = db.organization_users ++
          [{ id := mid, enterprise_id := e0, user_id := u0, role := role0,
             status := "active", joined_at := now }] := by
  unfold accept_invitation
  dsimp only
  repeat' split
  all_goals try exact Or.inl rfl
  refine Or.inr ⟨_, _, _, ?_, rfl⟩
  simp_all [List.isEmpty_iff]

/-- A membership count that is already positive is preserved by the
auto-accept loop: the loop inserts a membership row for a pair only
after observing that the pair has no row. -/
theorem autoAcceptGo_countMem (userId : String) (now : Int) (mkId : Nat → String) :
    ∀ (pend : List Invitation) (n : Nat) (db : DB) (e u : String),
      1 ≤ countMem db e u →
      countMem (autoAcceptGo userId now mkId pend n db).2 e u = countMem db e u := by
  intro pend
  induction pend with
  | nil =>
    intro n db e u _
    rfl
  | cons inv rest ih =>
    intro n db e u h
    unfold autoAcceptGo
    dsimp only
    split
    · exact ih n db e u h
    · split
      · exact ih n db e u h
      · split
        · exact ih n (markInvitationAccepted db inv.id userId now) e u h
        · rename_i hmem
          have hempty : membershipRows db inv.enterprise_id userId = [] := by
            simpa [List.isEmpty_iff] using hmem
          set db1 := insertMembership db (mkId n) inv.enterprise_id userId inv.role now
            with hdb1
          have hcount : countMem db1 e u = countMem db e u := by
            unfold countMem membershipRows at h ⊢
            rw [hdb1]
            unfold insertMembership
            dsimp only
            rw [List.filter_append, List.length_append]
            by_cases hrow : (inv.enterprise_id == e && userId == u) = true
            · exfalso
              rw [Bool.and_eq_true, beq_iff_eq, beq_iff_eq] at hrow
              obtain ⟨he, hu⟩ := hrow
              subst he
              subst hu
              unfold membershipRows at hempty
              rw [hempty] at h
              simp at h
            · simp only [List.filter, hrow]
              simp
          have h1 : 1 ≤ countMem db1 e u := by rw [hcount]; exact h
          have := ih (n + 1) (markInvitationAccepted db1 inv.id userId now) e u h1
          rw [this]
          exact hcount

/-- C6: acceptance is idempotent with respect to membership.  For every
pair that already has at least one membership row, neither the accept
endpoint nor the auto-acceptance loop changes the number of its
membership rows: a second acceptance inserts no duplicate (enterprise,
user) row. -/
theorem accept_idempotent_membership (db : DB) (tok : Option String)
    (au : Option String) (now : Int) (mid : String)
    (userId userEmail : String) (now2 : Int) (mkId : Nat → String)
    (e u : String)
    (h : 1 ≤ countMem db e u) :
    countMem (accept_invitation db tok au now mid).2 e u = countMem db e u ∧
    countMem (auto_accept_pending_invitations db userId userEmail now2 mkId).2 e u
      = countMem db e u := by
  constructor
  · rcases accept_invitation_orgUsers_shape db tok au now mid with
      hsh | ⟨e0, u0, r0, hemp, hsh⟩
    · unfold countMem membershipRows
      rw [hsh]
    · unfold countMem membershipRows
      rw [hsh, List.filter_append, List.length_append]
      by_cases hrow : (e0 == e && u0 == u) = true
      · exfalso
        rw [Bool.and_eq_true, beq_iff_eq, beq_iff_eq] at hrow
        obtain ⟨he, hu⟩ := hrow
        subst he
        subst hu
        unfold countMem at h
        rw [hemp] at h
        simp at h
      · simp only [List.filter, hrow]
        simp
  · exact autoAcceptGo_countMem userId now2 mkId _ 0 db e u h

/-- Witness for C6: in the fixture the pair (e1, u1) has one membership
row; accepting the pending invitation as u1 and auto-accepting for the
invited email both leave its count at one. -/
theorem accept_idempotent_membership_witness :
    countMem (accept_invitation egDB (some "tok1") (some "u1") 0 "m9").2 "e1" "u1"
      = countMem egDB "e1" "u1" ∧
    countMem (auto_accept_pending_invitations egDB "u1" "pat@example.com" 0 egMkId).2
        "e1" "u1"
      = countMem egDB "e1" "u1" :=
  accept_idempotent_membership egDB (some "tok1") (some "u1") 0 "m9"
    "u1" "pat@example.com" 0 egMkId "e1" "u1" (by decide)

/-- Rows with equal ids in a table whose ids are nodup are equal. -/
theorem invitation_eq_of_nodup {l : List Invitation}
    (hnd : (l.map Invitation.id).Nodup) {a b : Invitation}
    (ha : a ∈ l) (hb : b ∈ l) (hid : a.id = b.id) : a = b :=
  List.inj_on_of_nodup_map hnd ha hb hid

/-- The status-transition relation is reflexive. -/
theorem statusStep_refl (s : String) : statusStep s s := Or.inl rfl

/-- The status-transition relation is transitive: accepted and cancelled
are absorbing because they are distinct from pending. -/
theorem statusStep_trans {a b c : String} (h1 : statusStep a b)
    (h2 : statusStep b c) : statusStep a c := by
  rcases h1 with rfl | ⟨hpa, hb⟩
  · exact h2
  · rcases h2 with rfl | ⟨hpb, _⟩
    · exact Or.inr ⟨hpa, hb⟩
    · rcases hb with rfl | rfl
      · exact absurd hpb (by decide)
      · exact absurd hpb (by decide)

/-- An id-targeted update of an id-nodup table relates each row of the
original table to the row with the same id afterwards by whatever the
update does on the targeted row, and by equality elsewhere. -/
theorem statusStep_mem_map_update (l : List Invitation)
    (hnd : (l.map Invitation.id).Nodup) (tid : String)
    (upd : Invitation → Invitation)
    (hid : ∀ i, (upd i).id = i.id)
    (hstat : ∀ i, i ∈ l → i.id = tid → statusStep i.status (upd i).status)
    (inv : Invitation) (hinv : inv ∈ l)
    (inv2 : Invitation)
    (hinv2 : inv2 ∈ l.map (fun i => if i.id == tid then upd i else i))
    (heq : inv2.id = inv.id) : statusStep inv.status inv2.status := by
  obtain ⟨i0, hi0, hrep⟩ := List.mem_map.mp hinv2
  by_cases hc : (i0.id == tid) = true
  · rw [if_pos hc] at hrep
    have hid0 : i0.id = inv.id := by rw [← heq, ← hrep, hid]
    have h0 : i0 = inv := invitation_eq_of_nodup hnd hi0 hinv hid0
    rw [← hrep, h0]
    exact hstat inv hinv (by rw [← h0]; simpa using hc)
  · rw [if_neg hc] at hrep
    have h0 : i0 = inv := by
      apply invitation_eq_of_nodup hnd hi0 hinv
      rw [hrep]
      exact heq
    rw [← hrep, h0]
    exact statusStep_refl _

/-- An id-targeted acceptance update does not change the id column. -/
theorem updAccept_map_ids (l : List Invitation) (tid uid : String) (now : Int) :
    (l.map (fun i => if i.id == tid then
      { i with status := "accepted", accepted_at := some now, accepted_by := some uid }
      else i)).map Invitation.id = l.map Invitation.id := by
  rw [List.map_map]
  apply List.map_congr_left
  intro i _
  by_cases hc : (i.id == tid) = true <;> simp [Function.comp, hc]

/-- Shape of the invitations table across one cancel request: either
unchanged, or the pending invitation found by id is set to cancelled. -/
theorem cancel_invitation_invitations_shape (db : DB) (iid uid : String) :
    (cancel_invitation db iid uid).2.invitations = db.invitations ∨
    ∃ inv, db.invitations.find? (fun i => i.id == iid) = some inv ∧
      inv.status = "pending" ∧
      (cancel_invitation db iid uid).2.invitations
        = db.invitations.map (fun i =>
            if i.id == iid then { i with status := "cancelled" } else i) := by
  unfold cancel_invitation
  dsimp only
  repeat' split
  all_goals try exact Or.inl rfl
  refine Or.inr ⟨_, by assumption, ?_, rfl⟩
  simp_all

/-- Shape of the invitations table across one accept request: either
unchanged, or the pending invitation found by token is set to accepted
with acceptance metadata. -/
theorem accept_invitation_invitations_shape (db : DB) (tok au : Option String)
    (now : Int) (mid : String) :
    (accept_invitation db tok au now mid).2.invitations = db.invitations ∨
    ∃ t inv uid, tok = some t ∧
      db.invitations.find? (fun i => i.invitation_token == t) = some inv ∧
      inv.status = "pending" ∧ au = some uid ∧
      (accept_invitation db tok au now mid).2.invitations
        = db.invitations.map (fun i =>
            if i.id == inv.id then
              { i with status := "accepted", accepted_at := some now, accepted_by := some uid }
            else i) := by
  unfold accept_invitation
  dsimp only
  repeat' split
  all_goals try exact Or.inl rfl
  refine Or.inr ⟨_, _, _, rfl, by assumption, ?_, rfl, rfl⟩
  simp_all

/-- Shape of the invitations table across one complete request: either
unchanged, or the invitation found by id — in status pending or
accepted — is set to accepted with acceptance metadata. -/
theorem complete_invitation_invitations_shape (db : DB) (iid : Option String)
    (uid : String) (now : Int) (mid : String) :
    (complete_invitation db iid uid now mid).2.invitations = db.invitations ∨
    ∃ i0 inv, iid = some i0 ∧
      db.invitations.find? (fun i => i.id == i0) = some inv ∧
      (inv.status = "pending" ∨ inv.status = "accepted") ∧
      (complete_invitation db iid uid now mid).2.invitations
        = db.invitations.map (fun i =>
            if i.id == inv.id then
              { i with status := "accepted", accepted_at := some now, accepted_by := some uid }
            else i) := by
  unfold complete_invitation
  dsimp only
  repeat' split
  all_goals try exact Or.inl rfl
  refine Or.inr ⟨_, _, rfl, by assumption, ?_, rfl⟩
  rename_i hst _
  simp at hst
  tauto

/-- Status evolution across the auto-accept loop: while iterating a
snapshot of distinct invitations that are all pending in the current
state, every invitation row either keeps its status or moves from
pending to accepted. -/
theorem autoAcceptGo_statusStep (userId : String) (now : Int) (mkId : Nat → String) :
    ∀ (pend : List Invitation) (n : Nat) (db : DB),
      (db.invitations.map Invitation.id).Nodup →
      (pend.map Invitation.id).Nodup →
      (∀ p ∈ pend, ∀ r ∈ db.invitations, r.id = p.id → r.status = "pending") →
      ∀ inv ∈ db.invitations,
      ∀ inv2 ∈ (autoAcceptGo userId now mkId pend n db).2.invitations,
        inv2.id = inv.id → statusStep inv.status inv2.status := by
  intro pend
  induction pend with
  | nil =>
    intro n db hnd _ _ inv hinv inv2 hinv2 heq
    exact Or.inl (congrArg Invitation.status (invitation_eq_of_nodup hnd hinv2 hinv heq))
  | cons p rest ih =>
    intro n db hnd hpnd hpend inv hinv inv2 hinv2 heq
    have hpnd2 : (p.id :: rest.map Invitation.id).Nodup := by simpa using hpnd
    have hpnd_tail : (rest.map Invitation.id).Nodup := (List.nodup_cons.mp hpnd2).2
    have hp_not_rest : p.id ∉ rest.map Invitation.id := (List.nodup_cons.mp hpnd2).1
    have hpend_tail : ∀ q ∈ rest, ∀ r ∈ db.invitations, r.id = q.id →
        r.status = "pending" :=
      fun q hq => hpend q (List.mem_cons_of_mem p hq)
    have key : ∀ (nX : Nat) (dbX : DB),
        dbX.organization_users = dbX.organization_users →
        dbX.invitations = db.invitations.map (fun i =>
          if i.id == p.id then
            { i with
                status := "accepted"
                accepted_at := some now
                accepted_by := some userId }
          else i) →
        inv2 ∈ (autoAcceptGo userId now mkId rest nX dbX).2.invitations →
        statusStep inv.status inv2.status := by
      intro nX dbX _ hX hin2
      have hndX : (dbX.invitations.map Invitation.id).Nodup := by
        rw [hX, updAccept_map_ids]
        exact hnd
      have hpendX : ∀ q ∈ rest, ∀ r ∈ dbX.invitations, r.id = q.id →
          r.status = "pending" := by
        intro q hq r hr hrid
        rw [hX] at hr
        obtain ⟨r0, hr0, hrep⟩ := List.mem_map.mp hr
        by_cases hc : (r0.id == p.id) = true
        · exfalso
          rw [if_pos hc] at hrep
          have hrid0 : r.id = r0.id := by rw [← hrep]
          rw [beq_iff_eq] at hc
          apply hp_not_rest
          rw [← hc, ← hrid0, hrid]
          exact List.mem_map_of_mem Invitation.id hq
        · rw [if_neg hc] at hrep
          rw [← hrep] at hrid ⊢
          exact hpend_tail q hq r0 hr0 hrid
      have hid1 : (if (inv.id == p.id) = true then
          { inv with
                status := "accepted"
                accepted_at := some now
                accepted_by := some userId } else inv).id = inv.id := by
        by_cases hc : (inv.id == p.id) = true <;> simp [hc]
      have hinv1 : (if (inv.id == p.id) = true then
          { inv with
                status := "accepted"
                accepted_at := some now
                accepted_by := some userId } else inv) ∈ dbX.invitations := by
        rw [hX]
        exact List.mem_map_of_mem _ hinv
      have hstep : statusStep inv.status
          (if (inv.id == p.id) = true then
            { inv with
                status := "accepted"
                accepted_at := some now
                accepted_by := some userId } else inv).status := by
        by_cases hc : (inv.id == p.id) = true
        · rw [if_pos hc]
          have hpendinv : inv.status = "pending" :=
            hpend p (List.mem_cons_self p rest) inv hinv (by simpa using hc)
          exact Or.inr ⟨hpendinv, Or.inl rfl⟩
        · rw [if_neg hc]
          exact statusStep_refl _
      refine statusStep_trans hstep
        (ih nX dbX hndX hpnd_tail hpendX _ hinv1 inv2 hin2 ?_)
      rw [heq, hid1]
    unfold autoAcceptGo at hinv2
    dsimp only at hinv2
    split at hinv2
    · exact ih n db hnd hpnd_tail hpend_tail inv hinv inv2 hinv2 heq
    · split at hinv2
      · exact ih n db hnd hpnd_tail hpend_tail inv hinv inv2 hinv2 heq
      · split at hinv2
        · exact key n (markInvitationAccepted db p.id userId now) rfl rfl hinv2
        · exact key (n + 1)
            (markInvitationAccepted
              (insertMembership db (mkId n) p.enterprise_id userId p.role now)
              p.id userId now) rfl rfl hinv2

/-- Meal-plan creation does not touch the invitations table. -/
theorem create_user_meal_plan_invitations_eq (db : DB) (a e t : String)
    (r : MealPlanRequest) (now : Int) (pid : String) (em : Option String) :
    (create_user_meal_plan db a e t r now pid em).2.invitations = db.invitations := by
  unfold create_user_meal_plan
  dsimp only
  repeat' split
  all_goals rfl

/-- Meal-plan approval does not touch the invitations table. -/
theorem approve_meal_plan_invitations_eq (db : DB) (a e pid : String) (now : Int) :
    (approve_meal_plan db a e pid now).2.invitations = db.invitations := by
  unfold approve_meal_plan
  dsimp only
  repeat' split
  all_goals rfl

/-- Meal-plan rejection does not touch the invitations table. -/
theorem reject_meal_plan_invitations_eq (db : DB) (a e pid : String) :
    (reject_meal_plan db a e pid).2.invitations = db.invitations := by
  unfold reject_meal_plan
  dsimp only
  repeat' split
  all_goals rfl

/-- C7: across every modelled operation, an invitation status only ever
stays unchanged or transitions pending to accepted or pending to
cancelled; nothing moves an invitation out of accepted or cancelled.
Requires distinct invitation ids (the id column is the primary key) and
database-generated fresh ids for inserts. -/
theorem invitation_status_transitions (o : Op) (db : DB)
    (hnd : (db.invitations.map Invitation.id).Nodup)
    (hfresh : opFreshInvId o db = true) :
    ∀ inv ∈ db.invitations, ∀ inv2 ∈ (applyOp o db).invitations,
      inv2.id = inv.id → statusStep inv.status inv2.status := by
  intro inv hinv inv2 hinv2 heq
  cases o with
  | invite u e r n ni nt t =>
    dsimp only [applyOp] at hinv2
    rcases invite_user_invitations_shape db u e r n ni nt t with
      hsh | ⟨v, hsh, hvid, _, _⟩
    · rw [hsh] at hinv2
      exact Or.inl (congrArg Invitation.status (invitation_eq_of_nodup hnd hinv2 hinv heq))
    · rw [hsh] at hinv2
      rcases List.mem_append.mp hinv2 with hL | hR
      · exact Or.inl (congrArg Invitation.status (invitation_eq_of_nodup hnd hL hinv heq))
      · exfalso
        simp only [List.mem_singleton] at hR
        subst hR
        have hfr : ∀ i ∈ db.invitations, (i.id != ni) = true := by
          rw [← List.all_eq_true]
          simpa [opFreshInvId] using hfresh
        have hne : inv.id ≠ ni := by simpa using hfr inv hinv
        apply hne
        rw [← heq]
        exact hvid
  | cancel i u =>
    dsimp only [applyOp] at hinv2
    rcases cancel_invitation_invitations_shape db i u with
      hsh | ⟨inv0, hfind, hpend0, hsh⟩
    · rw [hsh] at hinv2
      exact Or.inl (congrArg Invitation.status (invitation_eq_of_nodup hnd hinv2 hinv heq))
    · rw [hsh] at hinv2
      have hinv0mem : inv0 ∈ db.invitations := List.mem_of_find?_eq_some hfind
      have hinv0id : inv0.id = i := by simpa using List.find?_some hfind
      refine statusStep_mem_map_update db.invitations hnd i
        (fun x => { x with status := "cancelled" }) (fun x => rfl) ?_
        inv hinv inv2 hinv2 heq
      intro x hx hxid
      have hx0 : x = inv0 :=
        invitation_eq_of_nodup hnd hx hinv0mem (hxid.trans hinv0id.symm)
      rw [hx0]
      exact Or.inr ⟨hpend0, Or.inr rfl⟩
  | accept t a n m =>
    dsimp only [applyOp] at hinv2
    rcases accept_invitation_invitations_shape db t a n m with
      hsh | ⟨tk, inv0, uid, _, hfind, hpend0, _, hsh⟩
    · rw [hsh] at hinv2
      exact Or.inl (congrArg Invitation.status (invitation_eq_of_nodup hnd hinv2 hinv heq))
    · rw [hsh] at hinv2
      have hinv0mem : inv0 ∈ db.invitations := List.mem_of_find?_eq_some hfind
      refine statusStep_mem_map_update db.invitations hnd inv0.id
        (fun x => { x with status := "accepted", accepted_at := some n, accepted_by := some uid })
        (fun x => rfl) ?_ inv hinv inv2 hinv2 heq
      intro x hx hxid
      have hx0 : x = inv0 := invitation_eq_of_nodup hnd hx hinv0mem hxid
      rw [hx0]
      exact Or.inr ⟨hpend0, Or.inl rfl⟩
  | complete i u n m =>
    dsimp only [applyOp] at hinv2
    rcases complete_invitation_invitations_shape db i u n m with
      hsh | ⟨i0, inv0, _, hfind, hpend0, hsh⟩
    · rw [hsh] at hinv2
      exact Or.inl (congrArg Invitation.status (invitation_eq_of_nodup hnd hinv2 hinv heq))
    · rw [hsh] at hinv2
      have hinv0mem : inv0 ∈ db.invitations := List.mem_of_find?_eq_some hfind
      refine statusStep_mem_map_update db.invitations hnd inv0.id
        (fun x => { x with status := "accepted", accepted_at := some n, accepted_by := some u })
        (fun x => rfl) ?_ inv hinv inv2 hinv2 heq
      intro x hx hxid
      have hx0 : x = inv0 := invitation_eq_of_nodup hnd hx hinv0mem hxid
      rw [hx0]
      rcases hpend0 with hp | ha
      · exact Or.inr ⟨hp, Or.inl rfl⟩
      · exact Or.inl ha.symm
  | autoAccept u em n mk =>
    dsimp only [applyOp, auto_accept_pending_invitations] at hinv2
    refine autoAcceptGo_statusStep u n mk
      (db.invitations.filter (fun i =>
        i.email == pyStrip (pyLower em) && i.status == "pending"))
      0 db hnd ?_ ?_ inv hinv inv2 hinv2 heq
    · exact List.Nodup.sublist (List.Sublist.map Invitation.id (List.filter_sublist _)) hnd
    · intro q hq r hr hrid
      have hqmem := List.mem_filter.mp hq
      have hqp : q.status = "pending" := by
        have h2 := hqmem.2
        rw [Bool.and_eq_true] at h2
        simpa using h2.2
      have hrq : r = q := invitation_eq_of_nodup hnd hr hqmem.1 hrid
      rw [hrq]
      exact hqp
  | createPlan a e tg r n pid em =>
    dsimp only [applyOp] at hinv2
    rw [create_user_meal_plan_invitations_eq] at hinv2
    exact Or.inl (congrArg Invitation.status (invitation_eq_of_nodup hnd hinv2 hinv heq))
  | approvePlan a e pid n =>
    dsimp only [applyOp] at hinv2
    rw [approve_meal_plan_invitations_eq] at hinv2
    exact Or.inl (congrArg Invitation.status (invitation_eq_of_nodup hnd hinv2 hinv heq))
  | rejectPlan a e pid =>
    dsimp only [applyOp] at hinv2
    rw [reject_meal_plan_invitations_eq] at hinv2
    exact Or.inl (congrArg Invitation.status (invitation_eq_of_nodup hnd hinv2 hinv heq))

/-- Witness for C7 at a concrete operation, state and row: cancelling
the fixture invitation takes its row from pending to cancelled, a step
the transition relation allows. -/
theorem invitation_status_transitions_witness :
    statusStep egInv.status (Invitation.status { egInv with status := "cancelled" }) :=
  invitation_status_transitions (Op.cancel "i1" "owner1") egDB (by decide) (by decide)
    egInv (by decide) { egInv with status := "cancelled" } (by decide) (by decide)

/-- C8: a reachable trace puts the enterprise owner into the
`organization_users` table of their own enterprise, contradicting the
invariant documented in the source (enterprise_routes.py lines 83 and
546-549) and claimed by the spec.  Starting from `c8DB0` (one enterprise
owned by `owner1`, no members), the owner invites a fresh email with no
registered account; the invite succeeds; the owner, authenticated,
then posts the invitation token to the accept endpoint, which inserts a
membership row for `owner1` — the accept path never compares the
accepter to the invited email — after which the membership listing
endpoint returns the owner. -/
theorem owner_gains_membership_via_accept_trace :
    (invite_user c8DB0 "owner1" "ent1" (some c8Req) 0 "invA" "tokA" false).1
      = InviteResult.created
          { id := "invA", enterprise_id := "ent1", email := "fresh@example.com",
            invited_by := "owner1", invitation_token := "tokA", role := "patient",
            message := none, status := "pending", expires_at := invitationTtl,
            accepted_at := none, accepted_by := none } ∧
    membershipRows c8DB0 "ent1" "owner1" = [] ∧
    (accept_invitation c8DB1 (some "tokA") (some "owner1") 1 "memA").1
      = AcceptResult.accepted "ent1" ∧
    membershipRows c8DB2 "ent1" "owner1" = [c8Mem] ∧
    c8Mem.user_id = "owner1" ∧
    (c8DB2.enterprises.map Enterprise.created_by) = ["owner1"] ∧
    get_enterprise_users c8DB2 "owner1" "ent1" = Except.ok [c8Mem] := by decide
